import Mathlib

/-!
Verification of the AliExpress reviews scraper against its specification.

The repository consists of several Playwright-based scraper variants sharing
one harvest design: pull raw review records, normalize them, deduplicate by a
content key, accumulate up to a caller-supplied target, flush in batches of a
fixed size, and detect exhaustion by counting rounds without progress.

This file is a shallow embedding of the code paths the claims refer to:

* the pure field normalizers of the API variant (`normalizeRating`,
  `sanitizeImages`, `mapReview`) and the image fixups of the other variants;
* the `results_wanted` input coercion (`RESULTS_WANTED`);
* the per-page processing loop of the API-pagination variant (`apiRun`);
* the per-request processing loop of the first `main.js` handler
  (`processV1`);
* the scroll-variant round loop with text-prefix dedupe, batch flushing,
  stall detection and final flush (`runHandlerE`).

JavaScript numbers are modelled as `JNum` (a finite value carried as the
rational it denotes, or NaN / ±Infinity).  At every concrete input evaluated
in this file the rational computation agrees with the IEEE double
computation performed by JavaScript (checked separately; in particular
`(97/20)*10` is exactly `48.5` in doubles, so `Math.round` yields `49`).
JS strings are modelled as Lean `String`s; `substring` and `trim` are
modelled on the character list (all inputs used here are ASCII).
Absent ("undefined") JS fields are modelled with `Option`.
-/

/-- A JavaScript number: a finite double (carried as the rational it
denotes), NaN, or an infinity.  `Number(x)` applied to an absent or
non-numeric field yields `nan`. -/
inductive JNum
  | num (q : ℚ)
  | nan
  | inf
  | neginf
deriving Repr, DecidableEq

/-- JS `a || d` for a string-valued `a`: an absent or empty string is falsy
and selects the default. -/
def jsStrOr (o : Option String) (d : String) : String :=
  match o with
  | some s => if s = "" then d else s
  | none => d

/-- JS `s || null` for a string `s`: the empty string becomes null. -/
def strOrNull (s : String) : Option String :=
  if s = "" then none else some s

/-- JS `x || null` for a possibly absent string field. -/
def jsTruthyStr (o : Option String) : Option String :=
  match o with
  | some s => strOrNull s
  | none => none

/-- ASCII whitespace, the only kind appearing in the inputs modelled here. -/
def isWS (c : Char) : Bool :=
  c = ' ' || c = '\t' || c = '\n' || c = '\r'

/-- JS `String.prototype.trim`, on the character list. -/
def jsTrim (s : String) : String :=
  String.mk (((s.data.dropWhile isWS).reverse.dropWhile isWS).reverse)

/-- JS `s.substring(0, n)` (all inputs used here are within the BMP, so
code-unit and character counts agree). -/
def jsSubstring (s : String) (n : Nat) : String :=
  String.mk (s.data.take n)

/-- JS `Math.round`: round half toward positive infinity. -/
def jsRound (q : ℚ) : ℤ := ⌊q + 1/2⌋

/-- JS `Math.max` on two (non-NaN) numbers. -/
def jsMax (a b : ℚ) : ℚ := if a ≤ b then b else a

/-- JS `Math.min` on two (non-NaN) numbers. -/
def jsMin (a b : ℚ) : ℚ := if a ≤ b then a else b

/-- JS `s.startsWith(p)`. -/
def jsStartsWith (s p : String) : Bool :=
  List.isPrefixOf p.data s.data

/-- `url.replace(pat-at-end, '')` for a fixed literal suffix, matched
case-insensitively (`pat` is given in lower case). -/
def stripSuffixCI (pat : String) (s : String) : String :=
  if List.isSuffixOf pat.data (s.data.map Char.toLower)
  then String.mk (s.data.take (s.data.length - pat.data.length))
  else s

/-- Consume leading decimal digits of a character list, returning how many
were consumed and the rest. -/
def dropDigits : List Char → Nat × List Char
  | [] => (0, [])
  | c :: rest =>
    if c.isDigit then
      let p := dropDigits rest
      (p.1 + 1, p.2)
    else (0, c :: rest)

/-- Length of a trailing match of the regex `_[0-9]+x[0-9]+\.jpg` (with the
`i` flag), if the string ends in one. -/
def sizeJpgSuffixLen (s : String) : Option Nat :=
  match (s.data.map Char.toLower).reverse with
  | 'g' :: 'p' :: 'j' :: '.' :: rest =>
    let p1 := dropDigits rest
    if p1.1 = 0 then none
    else
      match p1.2 with
      | 'x' :: r2 =>
        let p2 := dropDigits r2
        if p2.1 = 0 then none
        else
          match p2.2 with
          | '_' :: _ => some (4 + p1.1 + 1 + p2.1 + 1)
          | _ => none
      | _ => none
  | _ => none

/-- `url.replace(/_[0-9]+x[0-9]+\.jpg$/i, '')`. -/
def stripSizeJpg (s : String) : String :=
  match sizeJpgSuffixLen s with
  | some n => String.mk (s.data.take (s.data.length - n))
  | none => s

/-- `url.replace(/_\.avif$/i, '')`. -/
def stripAvifSuffix (s : String) : String := stripSuffixCI ("_.avif") s

/-- `url.replace(/_\.webp$/i, '')`. -/
def stripWebpSuffix (s : String) : String := stripSuffixCI ("_.webp") s

/-- The API variant's image sanitizer: strip a trailing `_NxN.jpg` size
suffix, then `_.avif`, then `_.webp`.  No scheme is added. -/
def sanitizeImages (images : List String) : List String :=
  images.map (fun url => stripWebpSuffix (stripAvifSuffix (stripSizeJpg url)))

/-- Image fixup of the API-interception response handler in `main.js`:
prefix protocol-relative URLs with `https:`, then strip `_.avif` and
`_.webp` suffixes. -/
def apiImageFix (img : String) : String :=
  stripWebpSuffix (stripAvifSuffix
    (if jsStartsWith img ("//") then "https:" ++ img else img))

/-- Image fixup of the first `main.js` request handler: prefix
protocol-relative URLs with `https:`; no suffix stripping. -/
def mainV1ImageFix (img : String) : String :=
  if jsStartsWith img ("//") then "https:" ++ img else img

/-- The API variant's rating normalizer: non-finite or non-positive input
yields null, otherwise the value is divided by 20, rounded (half up) to one
decimal place and clamped to `[0, 5]`. -/
def normalizeRating (buyerEval : JNum) : Option ℚ :=
  match buyerEval with
  | .num q =>
    if q ≤ 0 then none
    else some (jsMax 0 (jsMin 5 ((jsRound (q / 20 * 10) : ℚ) / 10)))
  | _ => none

/-- The first `main.js` handler's rating coercion `Number(review.rating) || 5`:
NaN and 0 are falsy and default to 5; any other number (including negative
or infinite ones) passes through. -/
def ratingOr5 (j : JNum) : JNum :=
  match j with
  | .num q => if q = 0 then .num 5 else .num q
  | .nan => .num 5
  | .inf => .inf
  | .neginf => .neginf

/-- `Number(review.helpful_count) || 0`. -/
def helpfulOr0 (j : JNum) : JNum :=
  match j with
  | .num q => if q = 0 then .num 0 else .num q
  | .nan => .num 0
  | .inf => .inf
  | .neginf => .neginf

/-- The scroll variants' star rating: `let rating = 5; if (starsBox) { const
filled = ...; if (filled.length > 0) rating = filled.length; }`.  `none`
means no stars box was found; otherwise the count of filled-star icons. -/
def starsRating (starsBox : Option Nat) : Nat :=
  match starsBox with
  | none => 5
  | some filled => if filled > 0 then filled else 5

/-- The `results_wanted` input coercion, identical across all variants:
`Number.isFinite(Number(raw)) ? Math.max(1, Number(raw)) : 20`.  The
argument is the result of `Number(raw)` (absent input yields the
destructuring default 20, i.e. `.num 20`). -/
def RESULTS_WANTED (raw : JNum) : ℚ :=
  match raw with
  | .num q => jsMax 1 q
  | _ => 20

/-!  ## The API-pagination variant (part_001)  -/

/-- Raw review item of the feedback API, restricted to the fields read by
`mapReview` and the page loop.  `buyerEval` carries the result of
`Number(review.buyerEval)`. -/
structure EvaRaw where
  evaluationIdStr : Option String
  evaluationId : Option Nat
  buyerName : Option String
  buyerEval : JNum
  buyerTranslationFeedback : Option String
  buyerFeedback : Option String
  evalDate : Option String
  skuInfo : Option String
  images : Option (List String)
  imageList : Option (List String)
  upVoteCount : Option Nat
  buyerCountry : Option String
  reviewType : Option String
deriving Repr, DecidableEq

/-- Canonical output record of the API variant. -/
structure ReviewP1 where
  review_id : String
  product_id : String
  product_url : String
  reviewer_name : String
  rating : Option ℚ
  review_text : Option String
  review_date : Option String
  sku_info : Option String
  images : List String
  helpful_count : Nat
  country : Option String
  review_type : Option String
  translated : Bool
deriving Repr, DecidableEq

/-- JS `String(x)` on a possibly absent numeric id: an absent value prints
as the (truthy) string `"undefined"`. -/
def jsStringOfId (o : Option Nat) : String :=
  match o with
  | some n => toString n
  | none => "undefined"

/-- The API variant's record normalizer.  It is total: it always returns a
record, even when the review text is absent or empty (then `review_text` is
null).  The only null-producing paths are individual fields. -/
def mapReview (pid purl : String) (r : EvaRaw) : ReviewP1 :=
  let ridBase := jsStrOr r.evaluationIdStr (jsStringOfId r.evaluationId)
  { review_id :=
      if ridBase = "" then
        pid ++ "-" ++ (match r.evalDate with | some d => d | none => "undefined")
      else ridBase
    product_id := pid
    product_url := purl
    reviewer_name := jsStrOr r.buyerName ("Anonymous")
    rating := normalizeRating r.buyerEval
    review_text := strOrNull (jsTrim (jsStrOr r.buyerTranslationFeedback (jsStrOr r.buyerFeedback (""))))
    review_date := jsTruthyStr r.evalDate
    sku_info := jsTruthyStr r.skuInfo
    images := sanitizeImages
      (match r.images with
       | some l => l
       | none => (match r.imageList with | some l => l | none => []))
    helpful_count := r.upVoteCount.getD 0
    country := jsTruthyStr r.buyerCountry
    review_type := jsTruthyStr r.reviewType
    translated :=
      match r.buyerTranslationFeedback with
      | none => false
      | some t => decide (t ≠ "" ∧ r.buyerFeedback ≠ some t) }

/-- One page of the feedback API response, as consumed by the page loop. -/
structure PageData where
  totalPage : Option Nat
  totalNum : Option Nat
  evaViewList : List EvaRaw
deriving Repr, DecidableEq

/-- State of the API variant's request handler loop.  `emitted` is the
concatenation of all batches pushed to the dataset so far, in order. -/
structure ApiState where
  saved : Nat
  pageNumber : Nat
  totalPages : Option Nat
  totalAvailable : Option Nat
  seenIds : List String
  emitted : List ReviewP1
deriving Repr, DecidableEq

/-- Initial state of the API page loop (`saved = 0`, `pageNumber = 1`). -/
def apiInit : ApiState :=
  { saved := 0, pageNumber := 1, totalPages := none, totalAvailable := none
    seenIds := [], emitted := [] }

/-- Inner batch loop of the API variant: for each review, stop once the
target is reached, skip previously seen (truthy) ids, otherwise record the
id, map the review into the batch and count it. -/
def apiBatch (rw : Nat) (pid purl : String) :
    List EvaRaw → Nat → List String → Nat × List String × List ReviewP1
  | [], saved, seen => (saved, seen, [])
  | rv :: rest, saved, seen =>
    if saved ≥ rw then (saved, seen, [])
    else
      let rid := jsStrOr rv.evaluationIdStr (jsStringOfId rv.evaluationId)
      if rid ≠ "" ∧ rid ∈ seen then apiBatch rw pid purl rest saved seen
      else
        let seen' := if rid ≠ "" then rid :: seen else seen
        let res := apiBatch rw pid purl rest (saved + 1) seen'
        (res.1, res.2.1, mapReview pid purl rv :: res.2.2)

/-- Loop condition of the API page loop:
`saved < RESULTS_WANTED && (totalPages === null || pageNumber <= totalPages)`. -/
def apiLoopCond (rw : Nat) (s : ApiState) : Bool :=
  decide (s.saved < rw) &&
    (match s.totalPages with
     | none => true
     | some tp => decide (s.pageNumber ≤ tp))

/-- The API variant's page loop, driven by the list of successive responses
of `fetchReviewPage`.  An empty review list advances the page and retries;
otherwise the batch is deduplicated, pushed, and the loop stops early when
the reported last page is reached. -/
def apiRun (rw : Nat) (pid purl : String) : List PageData → ApiState → ApiState
  | [], s => s
  | d :: rest, s =>
    if apiLoopCond rw s then
      let tp := match d.totalPage with | some n => some n | none => s.totalPages
      let ta := match d.totalNum with | some n => some n | none => s.totalAvailable
      if d.evaViewList.isEmpty then
        apiRun rw pid purl rest
          { s with totalPages := tp, totalAvailable := ta, pageNumber := s.pageNumber + 1 }
      else
        let res := apiBatch rw pid purl d.evaViewList s.saved s.seenIds
        let s1 : ApiState :=
          { saved := res.1, pageNumber := s.pageNumber, totalPages := tp
            totalAvailable := ta, seenIds := res.2.1
            emitted := s.emitted ++ res.2.2 }
        match tp with
        | some n =>
          if n ≠ 0 ∧ s.pageNumber ≥ n then s1
          else apiRun rw pid purl rest { s1 with pageNumber := s.pageNumber + 1 }
        | none => apiRun rw pid purl rest { s1 with pageNumber := s.pageNumber + 1 }
    else s

/-!  ## The first main.js request handler's processing loop  -/

/-- Raw review item as produced by the in-page extraction of the first
`main.js` handler.  `rating` and `helpful_count` carry the result of
`Number(...)` applied to the raw field. -/
structure RawV1 where
  review_id : Option String
  reviewer_name : Option String
  rating : JNum
  review_text : Option String
  review_date : Option String
  sku_info : Option String
  images : Option (List String)
  helpful_count : JNum
  country : Option String
deriving Repr, DecidableEq

/-- Output record of the first `main.js` handler. -/
structure ReviewV1 where
  review_id : String
  product_id : String
  product_url : String
  reviewer_name : String
  rating : JNum
  review_text : String
  review_date : Option String
  sku_info : Option String
  images : List String
  helpful_count : JNum
  country : Option String
deriving Repr, DecidableEq

/-- Record construction of the first `main.js` handler (lines 262–276):
rating is `Number(review.rating) || 5`, images get a scheme prefix only,
text defaults to the empty string (no drop). -/
def mkReviewV1 (pid purl rid : String) (r : RawV1) : ReviewV1 :=
  { review_id := rid
    product_id := pid
    product_url := purl
    reviewer_name := jsStrOr r.reviewer_name ("Anonymous")
    rating := ratingOr5 r.rating
    review_text := jsStrOr r.review_text ("")
    review_date := jsTruthyStr r.review_date
    sku_info := jsTruthyStr r.sku_info
    images := (match r.images with
               | some l => l.map mainV1ImageFix
               | none => [])
    helpful_count := helpfulOr0 r.helpful_count
    country := jsTruthyStr r.country }

/-- Processing loop of the first `main.js` handler (lines 256–279): stop at
the target, fall back to a generated id when the raw id is falsy (`fresh`
supplies the `Date.now()`/`Math.random()` based string for the item at the
given position), dedupe by id, otherwise save.  Returns the new `saved`
count, the grown id set and the records pushed this call. -/
def processV1 (rw : Nat) (pid purl : String) (fresh : Nat → String) :
    List RawV1 → Nat → Nat → List String → Nat × List String × List ReviewV1
  | [], _, saved, seen => (saved, seen, [])
  | r :: rs, idx, saved, seen =>
    if saved ≥ rw then (saved, seen, [])
    else
      let rid := jsStrOr r.review_id (fresh idx)
      if rid ∈ seen then processV1 rw pid purl fresh rs (idx + 1) saved seen
      else
        let res := processV1 rw pid purl fresh rs (idx + 1) (saved + 1) (rid :: seen)
        (res.1, res.2.1, mkReviewV1 pid purl rid r :: res.2.2)

/-!  ## The scroll-variant round loop (part_002)

The richest harvest loop of the repository: per round it extracts the
currently visible reviews, deduplicates them by the first 80 characters of
the text, counts rounds without new records (threshold 8), flushes full
batches of 10, and flushes the remaining buffer after the loop.  A fatal
mid-round throw aborts the handler before that final flush.  -/

/-- Raw item produced by the scroll variant's in-page extraction. -/
structure RawItem where
  text : String
  name : String
  itemDate : Option String
  rating : Nat
  sku : Option String
  images : List String
deriving Repr, DecidableEq

/-- Output record of the scroll variant. -/
structure Review where
  review_id : String
  product_id : String
  product_url : String
  reviewer_name : String
  rating : Nat
  review_text : String
  review_date : Option String
  sku_info : Option String
  images : List String
  helpful_count : Nat
  country : Option String
deriving Repr, DecidableEq

/-- The dedupe key: `r.text.substring(0, 80)`, a fixed-length leading
substring of the review text. -/
def contentKey (t : String) : String := jsSubstring t 80

/-- Record construction of the scroll variant (lines 174–186 of part_002);
`saved` is the running count before this record is accepted. -/
def mkReview (pid purl : String) (saved : Nat) (r : RawItem) : Review :=
  { review_id := pid ++ "_" ++ toString (saved + 1)
    product_id := pid
    product_url := purl
    reviewer_name := r.name
    rating := r.rating
    review_text := r.text
    review_date := r.itemDate
    sku_info := r.sku
    images := r.images
    helpful_count := 0
    country := none }

/-- State of the scroll variant's harvest loop.  `emitted` is the
concatenation of all batches pushed to the dataset so far; `buffer` is the
`reviews` array awaiting flush. -/
structure HState where
  saved : Nat
  seenTexts : List String
  buffer : List Review
  lastCount : Nat
  noNewRounds : Nat
  emitted : List Review
deriving Repr, DecidableEq

/-- Initial harvest state of one run. -/
def hInit : HState :=
  { saved := 0, seenTexts := [], buffer := [], lastCount := 0
    noNewRounds := 0, emitted := [] }

/-- Inner accept loop of a round (lines 169–189 of part_002): for each
extracted item, stop once the target is reached; reject items whose content
key was already seen; otherwise record the key, append the record to the
buffer and count it. -/
def addUnique (rw : Nat) (pid purl : String) : List RawItem → HState → HState
  | [], s => s
  | r :: rs, s =>
    if s.saved ≥ rw then s
    else if contentKey r.text ∈ s.seenTexts then addUnique rw pid purl rs s
    else
      addUnique rw pid purl rs
        { s with
          saved := s.saved + 1
          seenTexts := contentKey r.text :: s.seenTexts
          buffer := s.buffer ++ [mkReview pid purl s.saved r] }

/-- Batch flush (lines 207–210): when the buffer holds at least 10 records,
emit the oldest 10 and remove them; at most one batch per round. -/
def flushBatch (s : HState) : HState :=
  if s.buffer.length ≥ 10 then
    { s with emitted := s.emitted ++ s.buffer.take 10, buffer := s.buffer.drop 10 }
  else s

/-- Why the loop stopped: target reached, 8 rounds without new records, or
the round budget (or input) ran out. -/
inductive Reason
  | target
  | stall
  | cap
deriving Repr, DecidableEq

/-- Result of one round: continue with a new state, or stop. -/
inductive StepRes
  | cont (s : HState)
  | stop (s : HState) (r : Reason)
deriving Repr, DecidableEq

/-- The tail of one round after the accept loop (lines 195–210 of
part_002), applied to the state `s1` the accept loop produced: stall
counter (threshold 8, reset on progress), then batch flush. -/
def stallCheck (s1 : HState) : StepRes :=
  if s1.saved = s1.lastCount then
    if s1.noNewRounds + 1 ≥ 8 then
      .stop { s1 with noNewRounds := s1.noNewRounds + 1 } .stall
    else .cont (flushBatch { s1 with noNewRounds := s1.noNewRounds + 1 })
  else .cont (flushBatch { s1 with noNewRounds := 0, lastCount := s1.saved })

/-- One round of the scroll variant (lines 132–219 of part_002):
loop-condition check, accept loop, target check, stall counter, batch
flush. -/
def roundStep (rw : Nat) (pid purl : String) (items : List RawItem) (s : HState) : StepRes :=
  if s.saved ≥ rw then .stop s .target
  else if (addUnique rw pid purl items s).saved ≥ rw then
    .stop (addUnique rw pid purl items s) .target
  else stallCheck (addUnique rw pid purl items s)

/-- How a run ended: normally (with a stop reason) or by a thrown error. -/
inductive Outcome
  | done (r : Reason)
  | fatal
deriving Repr, DecidableEq

/-- The harvest loop over a list of per-round extraction results.  A `none`
round models a fatal provider error thrown inside the round: the handler
aborts immediately with the state as it stands. -/
def runRoundsE (rw : Nat) (pid purl : String) :
    List (Option (List RawItem)) → HState → HState × Outcome
  | [], s => (s, .done .cap)
  | none :: _, s => (s, .fatal)
  | some items :: rest, s =>
    match roundStep rw pid purl items s with
    | .stop s1 r => (s1, .done r)
    | .cont s1 => runRoundsE rw pid purl rest s1

/-- Final flush (lines 223–225): push whatever remains in the buffer. -/
def finalFlush (s : HState) : HState :=
  { s with emitted := s.emitted ++ s.buffer, buffer := [] }

/-- One full run of the scroll variant's request handler: at most 60
rounds, then — only if no fatal error was thrown — the final flush. -/
def runHandlerE (rw : Nat) (pid purl : String)
    (rounds : List (Option (List RawItem))) : HState × Outcome :=
  match runRoundsE rw pid purl (rounds.take 60) hInit with
  | (s, .fatal) => (s, .fatal)
  | (s, .done r) => (finalFlush s, .done r)

/-- Dedupe key of an output record. -/
def keyOf (rv : Review) : String := contentKey rv.review_text

/-- All dedupe keys currently accepted in a harvest state (emitted records
followed by the pending buffer). -/
def keyList (s : HState) : List String := (s.emitted ++ s.buffer).map keyOf

/-!  ## Concrete sample inputs used in counterexamples and witnesses  -/

/-- A raw API review carrying an id but no rating and no feedback text. -/
def evaBare : EvaRaw :=
  { evaluationIdStr := some ("123"), evaluationId := none
    buyerName := some ("Ann"), buyerEval := .nan
    buyerTranslationFeedback := none, buyerFeedback := none
    evalDate := some ("1 Jan 2026"), skuInfo := none
    images := none, imageList := none, upVoteCount := none
    buyerCountry := none, reviewType := none }

/-- A well-formed extracted item with non-empty text. -/
def itGood : RawItem :=
  { text := "nice quality product", name := "Ann", itemDate := none
    rating := 5, sku := none, images := [] }

/-- A second well-formed extracted item. -/
def itOther : RawItem :=
  { text := "arrived quickly and works great", name := "Bob", itemDate := none
    rating := 4, sku := none, images := [] }

/-- The harvest state immediately after a first successful round that
accepted `itGood` (one record saved and buffered, stall counter reset). -/
def s8 : HState :=
  { saved := 1, seenTexts := [contentKey itGood.text]
    buffer := [mkReview ("p") ("u") 0 itGood]
    lastCount := 1, noNewRounds := 0, emitted := [] }

/-!  ## Helper lemmas about the scroll-variant loop  -/

theorem flushBatch_saved (s : HState) : (flushBatch s).saved = s.saved := by
  unfold flushBatch; split <;> rfl

theorem flushBatch_seenTexts (s : HState) : (flushBatch s).seenTexts = s.seenTexts := by
  unfold flushBatch; split <;> rfl

theorem flushBatch_lastCount (s : HState) : (flushBatch s).lastCount = s.lastCount := by
  unfold flushBatch; split <;> rfl

theorem flushBatch_noNewRounds (s : HState) : (flushBatch s).noNewRounds = s.noNewRounds := by
  unfold flushBatch; split <;> rfl

theorem flushBatch_append (s : HState) :
    (flushBatch s).emitted ++ (flushBatch s).buffer = s.emitted ++ s.buffer := by
  unfold flushBatch; split
  · simp [List.append_assoc]
  · rfl

theorem addUnique_lastCount (rw : Nat) (pid purl : String) (items : List RawItem) (s : HState) :
    (addUnique rw pid purl items s).lastCount = s.lastCount := by
  induction items generalizing s with
  | nil => rfl
  | cons r rs ih =>
    unfold addUnique
    split
    · rfl
    · split
      · exact ih s
      · exact ih _

theorem addUnique_emitted (rw : Nat) (pid purl : String) (items : List RawItem) (s : HState) :
    (addUnique rw pid purl items s).emitted = s.emitted := by
  induction items generalizing s with
  | nil => rfl
  | cons r rs ih =>
    unfold addUnique
    split
    · rfl
    · split
      · exact ih s
      · exact ih _

theorem addUnique_seen_mono (rw : Nat) (pid purl : String) (items : List RawItem) (s : HState)
    (k : String) (hk : k ∈ s.seenTexts) : k ∈ (addUnique rw pid purl items s).seenTexts := by
  induction items generalizing s with
  | nil => exact hk
  | cons r rs ih =>
    unfold addUnique
    split
    · exact hk
    · split
      · exact ih s hk
      · exact ih _ (List.mem_cons_of_mem _ hk)

theorem addUnique_saved_le (rw : Nat) (pid purl : String) (items : List RawItem) (s : HState)
    (h : s.saved ≤ rw) : (addUnique rw pid purl items s).saved ≤ rw := by
  induction items generalizing s with
  | nil => exact h
  | cons r rs ih =>
    unfold addUnique
    split
    · exact h
    · next hlt =>
      split
      · exact ih s h
      · exact ih _ (by simpa using Nat.lt_of_not_le (by simpa using hlt))

theorem addUnique_skipAll (rw : Nat) (pid purl : String) (items : List RawItem) (s : HState)
    (h : ∀ it ∈ items, contentKey it.text ∈ s.seenTexts) :
    addUnique rw pid purl items s = s := by
  induction items with
  | nil => rfl
  | cons r rs ih =>
    unfold addUnique
    split
    · rfl
    · rw [if_pos (h r (List.mem_cons_self r rs))]
      exact ih (fun it hit => h it (List.mem_cons_of_mem r hit))

theorem addUnique_count (rw : Nat) (pid purl : String) (items : List RawItem) (s : HState)
    (h : s.saved = s.emitted.length + s.buffer.length) :
    (addUnique rw pid purl items s).saved =
      (addUnique rw pid purl items s).emitted.length +
        (addUnique rw pid purl items s).buffer.length := by
  induction items generalizing s with
  | nil => exact h
  | cons r rs ih =>
    unfold addUnique
    split
    · exact h
    · split
      · exact ih s h
      · exact ih _ (by simp [h]; omega)

theorem stallCheck_pres (P : HState → Prop)
    (hflush : ∀ s, P s → P (flushBatch s))
    (hset : ∀ (s : HState) (n m : Nat), P s → P { s with lastCount := m, noNewRounds := n })
    (s1 : HState) (h : P s1) :
    (∀ s2 r, stallCheck s1 = .stop s2 r → P s2) ∧
      (∀ s2, stallCheck s1 = .cont s2 → P s2) := by
  constructor
  · intro s2 r heq
    unfold stallCheck at heq
    split at heq
    · split at heq
      · cases heq
        exact hset s1 (s1.noNewRounds + 1) s1.lastCount h
      · cases heq
    · cases heq
  · intro s2 heq
    unfold stallCheck at heq
    split at heq
    · split at heq
      · cases heq
      · cases heq
        exact hflush _ (hset s1 (s1.noNewRounds + 1) s1.lastCount h)
    · cases heq
      exact hflush _ (hset s1 0 s1.saved h)

theorem roundStep_pres (rw : Nat) (pid purl : String) (P : HState → Prop)
    (Q : List RawItem → Prop)
    (hadd : ∀ items s, Q items → P s → P (addUnique rw pid purl items s))
    (hflush : ∀ s, P s → P (flushBatch s))
    (hset : ∀ (s : HState) (n m : Nat), P s → P { s with lastCount := m, noNewRounds := n })
    (items : List RawItem) (s : HState) (hQ : Q items) (h : P s) :
    (∀ s2 r, roundStep rw pid purl items s = .stop s2 r → P s2) ∧
      (∀ s2, roundStep rw pid purl items s = .cont s2 → P s2) := by
  have h1 : P (addUnique rw pid purl items s) := hadd items s hQ h
  constructor
  · intro s2 r heq
    unfold roundStep at heq
    split at heq
    · cases heq; exact h
    · split at heq
      · cases heq; exact h1
      · exact (stallCheck_pres P hflush hset _ h1).1 s2 r heq
  · intro s2 heq
    unfold roundStep at heq
    split at heq
    · cases heq
    · split at heq
      · cases heq
      · exact (stallCheck_pres P hflush hset _ h1).2 s2 heq

theorem runRoundsE_pres (rw : Nat) (pid purl : String) (P : HState → Prop)
    (Q : List RawItem → Prop)
    (hadd : ∀ items s, Q items → P s → P (addUnique rw pid purl items s))
    (hflush : ∀ s, P s → P (flushBatch s))
    (hset : ∀ (s : HState) (n m : Nat), P s → P { s with lastCount := m, noNewRounds := n }) :
    ∀ (rounds : List (Option (List RawItem))) (s : HState),
      (∀ x ∈ rounds, ∀ items, x = some items → Q items) → P s →
      P (runRoundsE rw pid purl rounds s).1 := by
  intro rounds
  induction rounds with
  | nil => intro s _ h; exact h
  | cons hd tl ih =>
    intro s hQ h
    cases hd with
    | none => exact h
    | some items =>
      have hQi : Q items := hQ (some items) (List.mem_cons_self _ _) items rfl
      have hpres := roundStep_pres rw pid purl P Q hadd hflush hset items s hQi h
      show P (runRoundsE rw pid purl (some items :: tl) s).1
      unfold runRoundsE
      cases hrs : roundStep rw pid purl items s with
      | stop s1 r => exact hpres.1 s1 r hrs
      | cont s1 =>
        exact ih s1 (fun x hx => hQ x (List.mem_cons_of_mem _ hx)) (hpres.2 s1 hrs)

theorem runRoundsE_no_fatal (rw : Nat) (pid purl : String) :
    ∀ (rounds : List (Option (List RawItem))) (s : HState),
      (∀ x ∈ rounds, x ≠ none) →
      ∃ r, (runRoundsE rw pid purl rounds s).2 = .done r := by
  intro rounds
  induction rounds with
  | nil => intro s _; exact ⟨.cap, rfl⟩
  | cons hd tl ih =>
    intro s hno
    cases hd with
    | none => exact absurd rfl (hno none (List.mem_cons_self _ _))
    | some items =>
      show ∃ r, (runRoundsE rw pid purl (some items :: tl) s).2 = .done r
      unfold runRoundsE
      cases hrs : roundStep rw pid purl items s with
      | stop s1 r => exact ⟨r, rfl⟩
      | cont s1 => exact ih s1 (fun x hx => hno x (List.mem_cons_of_mem _ hx))

theorem keyList_flushBatch (s : HState) : keyList (flushBatch s) = keyList s := by
  unfold keyList
  rw [flushBatch_append]

theorem addUnique_keys (rw : Nat) (pid purl : String) (items : List RawItem) :
    ∀ s : HState, (keyList s).Nodup → (∀ k ∈ keyList s, k ∈ s.seenTexts) →
      (keyList (addUnique rw pid purl items s)).Nodup ∧
        ∀ k ∈ keyList (addUnique rw pid purl items s),
          k ∈ (addUnique rw pid purl items s).seenTexts := by
  induction items with
  | nil => intro s h1 h2; exact ⟨h1, h2⟩
  | cons r rs ih =>
    intro s h1 h2
    unfold addUnique
    split
    · exact ⟨h1, h2⟩
    · split
      · exact ih s h1 h2
      · next hnew =>
        have hkey : contentKey r.text ∉ keyList s := fun hmem => hnew (h2 _ hmem)
        have hkl : keyList
            { s with
              saved := s.saved + 1
              seenTexts := contentKey r.text :: s.seenTexts
              buffer := s.buffer ++ [mkReview pid purl s.saved r] }
            = keyList s ++ [contentKey r.text] := by
          simp [keyList, keyOf, mkReview, contentKey, List.map_append]
        refine ih _ ?_ ?_
        · rw [hkl]
          refine List.Nodup.append h1 (List.nodup_singleton _) ?_
          intro a ha hb
          simp only [List.mem_singleton] at hb
          subst hb
          exact hkey ha
        · intro k hk
          rw [hkl] at hk
          rcases List.mem_append.mp hk with hk | hk
          · exact List.mem_cons_of_mem _ (h2 k hk)
          · simp only [List.mem_singleton] at hk
            subst hk
            exact List.mem_cons_self _ _

theorem addUnique_text (rw : Nat) (pid purl : String) (items : List RawItem) :
    ∀ s : HState, (∀ it ∈ items, it.text ≠ "") →
      (∀ rv ∈ s.emitted ++ s.buffer, rv.review_text ≠ "") →
      ∀ rv ∈ (addUnique rw pid purl items s).emitted ++ (addUnique rw pid purl items s).buffer,
        rv.review_text ≠ "" := by
  induction items with
  | nil => intro s _ h; exact h
  | cons r rs ih =>
    intro s hQ h
    unfold addUnique
    split
    · exact h
    · split
      · exact ih s (fun it hit => hQ it (List.mem_cons_of_mem _ hit)) h
      · apply ih
        · exact fun it hit => hQ it (List.mem_cons_of_mem _ hit)
        · intro rv hrv
          simp only [List.mem_append, List.mem_singleton] at hrv
          rcases hrv with hrv | hrv | hrv
          · exact h rv (List.mem_append.mpr (Or.inl hrv))
          · exact h rv (List.mem_append.mpr (Or.inr hrv))
          · subst hrv
            exact hQ r (List.mem_cons_self _ _)

theorem runRoundsE_count (rw : Nat) (pid purl : String)
    (rounds : List (Option (List RawItem))) (s : HState)
    (h : s.saved = s.emitted.length + s.buffer.length) :
    (runRoundsE rw pid purl rounds s).1.saved =
      (runRoundsE rw pid purl rounds s).1.emitted.length +
        (runRoundsE rw pid purl rounds s).1.buffer.length := by
  refine runRoundsE_pres rw pid purl
    (fun t => t.saved = t.emitted.length + t.buffer.length) (fun _ => True)
    ?_ ?_ ?_ rounds s (fun _ _ _ _ => trivial) h
  · exact fun items t _ ht => addUnique_count rw pid purl items t ht
  · intro t ht
    have hlen := congrArg List.length (flushBatch_append t)
    simp only [List.length_append] at hlen
    rw [flushBatch_saved]
    omega
  · exact fun t n m ht => ht

theorem runRoundsE_keys (rw : Nat) (pid purl : String)
    (rounds : List (Option (List RawItem))) (s : HState)
    (h1 : (keyList s).Nodup) (h2 : ∀ k ∈ keyList s, k ∈ s.seenTexts) :
    (keyList (runRoundsE rw pid purl rounds s).1).Nodup ∧
      ∀ k ∈ keyList (runRoundsE rw pid purl rounds s).1,
        k ∈ (runRoundsE rw pid purl rounds s).1.seenTexts := by
  refine runRoundsE_pres rw pid purl
    (fun t => (keyList t).Nodup ∧ ∀ k ∈ keyList t, k ∈ t.seenTexts) (fun _ => True)
    ?_ ?_ ?_ rounds s (fun _ _ _ _ => trivial) ⟨h1, h2⟩
  · exact fun items t _ ht => addUnique_keys rw pid purl items t ht.1 ht.2
  · intro t ht
    constructor
    · rw [keyList_flushBatch]; exact ht.1
    · intro k hk
      rw [keyList_flushBatch] at hk
      rw [flushBatch_seenTexts]
      exact ht.2 k hk
  · exact fun t n m ht => ht

theorem runRoundsE_text (rw : Nat) (pid purl : String)
    (rounds : List (Option (List RawItem))) (s : HState)
    (hok : ∀ x ∈ rounds, ∀ items, x = some items → ∀ it ∈ items, it.text ≠ "")
    (h : ∀ rv ∈ s.emitted ++ s.buffer, rv.review_text ≠ "") :
    ∀ rv ∈ (runRoundsE rw pid purl rounds s).1.emitted ++
        (runRoundsE rw pid purl rounds s).1.buffer, rv.review_text ≠ "" := by
  refine runRoundsE_pres rw pid purl
    (fun t => ∀ rv ∈ t.emitted ++ t.buffer, rv.review_text ≠ "")
    (fun items => ∀ it ∈ items, it.text ≠ "")
    ?_ ?_ ?_ rounds s hok h
  · exact fun items t hQ ht => addUnique_text rw pid purl items t hQ ht
  · intro t ht rv hrv
    rw [flushBatch_append] at hrv
    exact ht rv hrv
  · exact fun t n m ht => ht

theorem runHandlerE_eq_done (rw : Nat) (pid purl : String)
    (rounds : List (Option (List RawItem))) (s : HState) (r : Reason)
    (h : runRoundsE rw pid purl (rounds.take 60) hInit = (s, .done r)) :
    runHandlerE rw pid purl rounds = (finalFlush s, .done r) := by
  unfold runHandlerE
  rw [h]

theorem runHandlerE_eq_fatal (rw : Nat) (pid purl : String)
    (rounds : List (Option (List RawItem))) (s : HState)
    (h : runRoundsE rw pid purl (rounds.take 60) hInit = (s, .fatal)) :
    runHandlerE rw pid purl rounds = (s, .fatal) := by
  unfold runHandlerE
  rw [h]

theorem stall_countdown (rw : Nat) (pid purl : String) :
    ∀ (stallRounds : List (List RawItem)) (rest : List (Option (List RawItem))) (s : HState),
      s.saved < rw → s.lastCount = s.saved →
      s.noNewRounds + stallRounds.length = 8 → stallRounds ≠ [] →
      (∀ round ∈ stallRounds, ∀ it ∈ round, contentKey it.text ∈ s.seenTexts) →
      (runRoundsE rw pid purl (stallRounds.map some ++ rest) s).2 = .done .stall := by
  intro sr
  induction sr with
  | nil => intro rest s _ _ _ hne _; exact absurd rfl hne
  | cons round tl ih =>
    intro rest s hlt hlc hcount _ hseen
    have hskip : addUnique rw pid purl round s = s :=
      addUnique_skipAll rw pid purl round s (hseen round (List.mem_cons_self _ _))
    have hnotge : ¬ s.saved ≥ rw := not_le.mpr hlt
    have hlist : (round :: tl).map some ++ rest = some round :: (tl.map some ++ rest) := by
      simp
    rw [hlist]
    cases tl with
    | nil =>
      have h8 : s.noNewRounds + 1 ≥ 8 := by
        simp only [List.length_cons, List.length_nil] at hcount
        omega
      have hrs : roundStep rw pid purl round s
          = .stop { s with noNewRounds := s.noNewRounds + 1 } .stall := by
        unfold roundStep stallCheck
        rw [hskip, if_neg hnotge, if_neg hnotge, if_pos hlc.symm, if_pos h8]
      unfold runRoundsE
      rw [hrs]
    | cons a tl2 =>
      have h8 : ¬ (s.noNewRounds + 1 ≥ 8) := by
        simp only [List.length_cons] at hcount
        omega
      have hrs : roundStep rw pid purl round s
          = .cont (flushBatch { s with noNewRounds := s.noNewRounds + 1 }) := by
        unfold roundStep stallCheck
        rw [hskip, if_neg hnotge, if_neg hnotge, if_pos hlc.symm, if_neg h8]
      unfold runRoundsE
      rw [hrs]
      refine ih rest (flushBatch { s with noNewRounds := s.noNewRounds + 1 }) ?_ ?_ ?_ ?_ ?_
      · rw [flushBatch_saved]; exact hlt
      · rw [flushBatch_lastCount, flushBatch_saved]; exact hlc
      · rw [flushBatch_noNewRounds]
        simp only [List.length_cons] at hcount ⊢
        show s.noNewRounds + 1 + (tl2.length + 1) = 8
        omega
      · simp
      · intro rd hrd it hit
        rw [flushBatch_seenTexts]
        exact hseen rd (List.mem_cons_of_mem _ hrd) it hit

theorem roundStep_reset (rw : Nat) (pid purl : String) (items : List RawItem) (s : HState)
    (h1 : ¬ s.saved ≥ rw)
    (h2 : ¬ (addUnique rw pid purl items s).saved ≥ rw)
    (h3 : (addUnique rw pid purl items s).saved ≠ s.lastCount) :
    ∃ s2, roundStep rw pid purl items s = .cont s2 ∧
      s2.noNewRounds = 0 ∧ s2.lastCount = (addUnique rw pid purl items s).saved := by
  have hlc := addUnique_lastCount rw pid purl items s
  refine ⟨flushBatch { addUnique rw pid purl items s with
      noNewRounds := 0, lastCount := (addUnique rw pid purl items s).saved }, ?_, ?_, ?_⟩
  · unfold roundStep stallCheck
    rw [if_neg h1, if_neg h2, if_neg (by rw [hlc]; exact h3)]
  · rw [flushBatch_noNewRounds]
  · rw [flushBatch_lastCount]

theorem apiBatch_le (rw : Nat) (pid purl : String) :
    ∀ (list : List EvaRaw) (saved : Nat) (seen : List String), saved ≤ rw →
      (apiBatch rw pid purl list saved seen).1 ≤ rw := by
  intro list
  induction list with
  | nil => intro saved seen h; exact h
  | cons rv rest ih =>
    intro saved seen h
    simp only [apiBatch]
    split
    · exact h
    · next hlt =>
      split
      · exact ih saved seen h
      · exact ih (saved + 1) _ (Nat.lt_of_not_le (by simpa using hlt))

theorem apiRun_le (rw : Nat) (pid purl : String) :
    ∀ (pages : List PageData) (s : ApiState), s.saved ≤ rw →
      (apiRun rw pid purl pages s).saved ≤ rw := by
  intro pages
  induction pages with
  | nil => intro s h; exact h
  | cons d rest ih =>
    intro s h
    simp only [apiRun]
    split
    · split
      · exact ih _ h
      · have hb := apiBatch_le rw pid purl d.evaViewList s.saved s.seenIds h
        split
        · split
          · exact hb
          · exact ih _ hb
        · exact ih _ hb
    · exact h

theorem processV1_le (rw : Nat) (pid purl : String) (fresh : Nat → String) :
    ∀ (items : List RawV1) (idx saved : Nat) (seen : List String), saved ≤ rw →
      (processV1 rw pid purl fresh items idx saved seen).1 ≤ rw := by
  intro items
  induction items with
  | nil => intro idx saved seen h; exact h
  | cons r rs ih =>
    intro idx saved seen h
    simp only [processV1]
    split
    · exact h
    · next hlt =>
      split
      · exact ih _ saved seen h
      · exact ih _ (saved + 1) _ (Nat.lt_of_not_le (by simpa using hlt))

/-!  ## Claims  -/

/-- C1: the number of records saved never exceeds the caller's target.  In
the API-pagination variant, a full run from the initial state keeps
`saved ≤ RESULTS_WANTED` for every sequence of page responses; in the first
main.js handler, the processing loop preserves `saved ≤ RESULTS_WANTED`:
both accept loops are guarded by `if (saved >= RESULTS_WANTED) break`. -/
theorem C1_saved_never_exceeds_target :
    (∀ (rw : Nat) (pid purl : String) (pages : List PageData),
        (apiRun rw pid purl pages apiInit).saved ≤ rw) ∧
      (∀ (rw : Nat) (pid purl : String) (fresh : Nat → String) (items : List RawV1)
          (idx saved : Nat) (seen : List String), saved ≤ rw →
          (processV1 rw pid purl fresh items idx saved seen).1 ≤ rw) := by
  constructor
  · intro rw pid purl pages
    exact apiRun_le rw pid purl pages apiInit (Nat.zero_le rw)
  · intro rw pid purl fresh items idx saved seen h
    exact processV1_le rw pid purl fresh items idx saved seen h

/-- C1 witness: the bound instantiated at a concrete state. -/
theorem C1_saved_never_exceeds_target_witness :
    (0 : Nat) ≤ 20 ∧ (processV1 20 ("p") ("u") (fun _ => "f") [] 0 0 []).1 ≤ 20 :=
  ⟨by decide, C1_saved_never_exceeds_target.2 20 ("p") ("u") (fun _ => "f") [] 0 0 [] (by decide)⟩

/-- C2: for every fatal-error-free round sequence of the scroll variant,
after the final flush the pending buffer is empty and the total number of
records emitted to the sink (all batches plus the final partial flush, in
order) equals the final `saved` count: no accepted record is counted but
never emitted, and none is emitted twice. -/
theorem C2_saved_equals_total_emitted :
    ∀ (rw : Nat) (pid purl : String) (rounds : List (List RawItem)),
      (runHandlerE rw pid purl (rounds.map some)).1.buffer = [] ∧
        (runHandlerE rw pid purl (rounds.map some)).1.emitted.length =
          (runHandlerE rw pid purl (rounds.map some)).1.saved := by
  intro rw pid purl rounds
  have hno : ∀ x ∈ (rounds.map some).take 60, x ≠ none := by
    intro x hx
    have hx2 := List.mem_of_mem_take hx
    rcases List.mem_map.mp hx2 with ⟨y, _, rfl⟩
    simp
  obtain ⟨r, hr⟩ := runRoundsE_no_fatal rw pid purl ((rounds.map some).take 60) hInit hno
  have hc := runRoundsE_count rw pid purl ((rounds.map some).take 60) hInit rfl
  rcases e : runRoundsE rw pid purl ((rounds.map some).take 60) hInit with ⟨s, o⟩
  rw [e] at hr hc
  simp only at hr hc
  subst hr
  rw [runHandlerE_eq_done rw pid purl (rounds.map some) s r e]
  refine ⟨rfl, ?_⟩
  simp only [finalFlush, List.length_append]
  omega

/-- C3: across any round sequence (with or without a fatal abort), the
scroll variant emits at most one record per distinct content-prefix
fingerprint (the first 80 characters of the text): the emitted fingerprint
list has no duplicates, because a fingerprint already in the seen set causes
every later record with the same fingerprint to be rejected. -/
theorem C3_at_most_one_per_fingerprint :
    ∀ (rw : Nat) (pid purl : String) (rounds : List (Option (List RawItem))),
      ((runHandlerE rw pid purl rounds).1.emitted.map keyOf).Nodup := by
  intro rw pid purl rounds
  have hk := runRoundsE_keys rw pid purl (rounds.take 60) hInit
    (by simp [keyList, hInit]) (by simp [keyList, hInit])
  rcases e : runRoundsE rw pid purl (rounds.take 60) hInit with ⟨s, o⟩
  rw [e] at hk
  have hnodup : (keyList s).Nodup := hk.1
  cases o with
  | fatal =>
    rw [runHandlerE_eq_fatal rw pid purl rounds s e]
    have hsub : (s.emitted.map keyOf).Sublist (keyList s) := by
      unfold keyList
      rw [List.map_append]
      exact List.sublist_append_left _ _
    exact hsub.nodup hnodup
  | done r =>
    rw [runHandlerE_eq_done rw pid purl rounds s r e]
    show ((finalFlush s).emitted.map keyOf).Nodup
    simpa [finalFlush, keyList] using hnodup

/-- C4 counterexample: the claim's particular values fail on the code.
`normalizeRating` divides every positive input by 20, so a discrete star
count of 4 normalizes to 0.2, not 4; and a score of 97 normalizes to 4.9
(half-up rounding to one decimal place), not 4.85. -/
theorem C4_counterexample :
    normalizeRating (.num 4) = some (1/5) ∧ (1/5 : ℚ) ≠ 4 ∧
      normalizeRating (.num 97) = some (49/10) ∧ (49/10 : ℚ) ≠ 485/100 := by
  refine ⟨?_, by norm_num, ?_, by norm_num⟩
  · norm_num [normalizeRating, jsRound, jsMax, jsMin]
  · norm_num [normalizeRating, jsRound, jsMax, jsMin]

/-- C4 (amended): `normalizeRating` maps every positive finite score `q` to
`q / 20`, rounded half-up to one decimal place and clamped to `[0, 5]` (so
the result is `m / 10` for some integer `0 ≤ m ≤ 50`); in particular
4 ↦ 0.2 (a star count is not passed through verbatim), 80 ↦ 4.0 and
97 ↦ 4.9 (one-decimal rounding cannot produce 4.85). -/
theorem C4_rating_normalization :
    normalizeRating (.num 4) = some (1/5) ∧
      normalizeRating (.num 80) = some 4 ∧
      normalizeRating (.num 97) = some (49/10) ∧
      ∀ q : ℚ, 0 < q → ∃ m : ℤ, 0 ≤ m ∧ m ≤ 50 ∧
        normalizeRating (.num q) = some ((m : ℚ) / 10) := by
  refine ⟨?_, ?_, ?_, ?_⟩
  · norm_num [normalizeRating, jsRound, jsMax, jsMin]
  · norm_num [normalizeRating, jsRound, jsMax, jsMin]
  · norm_num [normalizeRating, jsRound, jsMax, jsMin]
  · intro q hq
    refine ⟨max 0 (min 50 (jsRound (q / 20 * 10))), le_max_left _ _,
      max_le (by norm_num) (min_le_left _ _), ?_⟩
    have h10 : (0:ℚ) < 10 := by norm_num
    simp only [normalizeRating, if_neg (not_le.mpr hq)]
    congr 1
    push_cast
    unfold jsMax jsMin
    rcases le_or_lt 5 ((jsRound (q / 20 * 10) : ℚ) / 10) with h1 | h1
    · rw [if_pos h1, if_pos (by norm_num : (0:ℚ) ≤ 5)]
      have h50 : (50:ℚ) ≤ (jsRound (q / 20 * 10) : ℚ) := by
        have := (le_div_iff₀ h10).mp h1
        linarith
      rw [min_eq_left h50, max_eq_right (by norm_num : (0:ℚ) ≤ 50)]
      norm_num
    · rcases le_or_lt 0 ((jsRound (q / 20 * 10) : ℚ) / 10) with h2 | h2
      · rw [if_neg (not_le.mpr h1), if_pos h2]
        have hk50 : (jsRound (q / 20 * 10) : ℚ) ≤ 50 := by
          have := (div_lt_iff₀ h10).mp h1
          linarith
        have hk0 : (0:ℚ) ≤ (jsRound (q / 20 * 10) : ℚ) := by
          have := (le_div_iff₀ h10).mp h2
          linarith
        rw [min_eq_right hk50, max_eq_right hk0]
      · rw [if_neg (not_le.mpr h1), if_neg (not_le.mpr h2)]
        have hk0 : (jsRound (q / 20 * 10) : ℚ) < 0 := by
          have := (div_lt_iff₀ h10).mp h2
          linarith
        rw [min_eq_right (by linarith : (jsRound (q / 20 * 10) : ℚ) ≤ 50),
          max_eq_left hk0.le]
        norm_num

/-- C4 witness: the amended normalization applied to the positive score 3. -/
theorem C4_rating_normalization_witness :
    (0:ℚ) < 3 ∧ ∃ m : ℤ, 0 ≤ m ∧ m ≤ 50 ∧
      normalizeRating (.num 3) = some ((m : ℚ) / 10) :=
  ⟨by decide, C4_rating_normalization.2.2.2 3 (by decide)⟩

/-- C5 counterexample: a raw API record with no rating field maps to a
Review whose rating is null, not the claimed maximum 5: `normalizeRating`
returns null on non-numeric input and `mapReview` stores it verbatim. -/
theorem C5_counterexample :
    (mapReview ("p") ("u") evaBare).rating = none ∧ (none : Option ℚ) ≠ some 5 := by
  exact ⟨rfl, by decide⟩

/-- C5 (amended): the missing-rating default depends on the variant.  In
the first main.js handler, an absent/non-numeric (NaN) or zero rating
coerces to 5 (`Number(r) || 5`); in the scroll variants a missing stars box
or zero filled stars defaults to 5; but in the API variant `normalizeRating`
returns null for an absent, non-numeric or non-positive `buyerEval`, and
`mapReview` stores null rather than 5. -/
theorem C5_rating_default :
    (∀ j : JNum, j = JNum.nan ∨ j = JNum.num 0 → ratingOr5 j = JNum.num 5) ∧
      (starsRating none = 5 ∧ starsRating (some 0) = 5) ∧
      ∀ (pid purl : String) (r : EvaRaw),
        (r.buyerEval = JNum.nan ∨ ∃ q : ℚ, q ≤ 0 ∧ r.buyerEval = JNum.num q) →
        (mapReview pid purl r).rating = none := by
  refine ⟨?_, ⟨rfl, rfl⟩, ?_⟩
  · rintro j (rfl | rfl)
    · rfl
    · simp [ratingOr5]
  · rintro pid purl r (h | ⟨q, hq, h⟩)
    · show normalizeRating r.buyerEval = none
      rw [h]
      rfl
    · show normalizeRating r.buyerEval = none
      rw [h]
      simp [normalizeRating, hq]

/-- C5 witness: the default evaluated at NaN and at a concrete record. -/
theorem C5_rating_default_witness :
    ratingOr5 JNum.nan = JNum.num 5 ∧ (mapReview ("p") ("u") evaBare).rating = none :=
  ⟨C5_rating_default.1 JNum.nan (Or.inl rfl),
    C5_rating_default.2.2 ("p") ("u") evaBare (Or.inl rfl)⟩

/-- C6 counterexample: the API variant's normalizer does not drop a record
whose text is absent — the record is still emitted to the sink, with a null
`review_text` field, refuting both halves of the claim on this variant. -/
theorem C6_counterexample :
    ((apiRun 20 ("p") ("u")
        [{ totalPage := some 1, totalNum := some 1, evaViewList := [evaBare] }]
        apiInit).emitted.map (fun rv => rv.review_text)) = [none] := by
  decide

/-- C6 (amended): `mapReview` never returns null — it produces a record for
every input, with `review_text` null exactly when the merged feedback text
trims to the empty string; the minimum-length text filter lives in the
scroll variants' in-page extraction instead, so under the extraction
guarantee that every pulled item has non-empty text, every record the
scroll-variant loop emits has non-empty text. -/
theorem C6_text_filter :
    (∀ (pid purl : String) (r : EvaRaw),
        ((mapReview pid purl r).review_text = none ↔
          jsTrim (jsStrOr r.buyerTranslationFeedback (jsStrOr r.buyerFeedback (""))) = "")) ∧
      ∀ (rw : Nat) (pid purl : String) (rounds : List (List RawItem)),
        (∀ round ∈ rounds, ∀ it ∈ round, it.text ≠ "") →
        ∀ rv ∈ (runHandlerE rw pid purl (rounds.map some)).1.emitted,
          rv.review_text ≠ "" := by
  constructor
  · intro pid purl r
    show strOrNull (jsTrim (jsStrOr r.buyerTranslationFeedback
      (jsStrOr r.buyerFeedback ("")))) = none ↔ _
    unfold strOrNull
    split
    · next h => simp [h]
    · next h => simp [h]
  · intro rw pid purl rounds hne rv hrv
    have htext := runRoundsE_text rw pid purl ((rounds.map some).take 60) hInit ?_ (by simp [hInit])
    · rcases e : runRoundsE rw pid purl ((rounds.map some).take 60) hInit with ⟨s, o⟩
      rw [e] at htext
      cases o with
      | fatal =>
        rw [runHandlerE_eq_fatal rw pid purl (rounds.map some) s e] at hrv
        exact htext rv (List.mem_append.mpr (Or.inl hrv))
      | done r =>
        rw [runHandlerE_eq_done rw pid purl (rounds.map some) s r e] at hrv
        have : rv ∈ s.emitted ++ s.buffer := by
          simpa [finalFlush] using hrv
        exact htext rv this
    · intro x hx items hxi it hit
      have hx2 := List.mem_of_mem_take hx
      rcases List.mem_map.mp hx2 with ⟨y, hy, rfl⟩
      cases hxi
      exact hne _ hy it hit

/-- C6 witness: a run over one round with one non-empty-text item emits
that record with non-empty text. -/
theorem C6_text_filter_witness :
    itGood.text ≠ "" ∧ (mkReview ("p") ("u") 0 itGood).review_text ≠ "" := by
  refine ⟨by decide, ?_⟩
  exact C6_text_filter.2 1 ("p") ("u") [[itGood]] (by decide)
    (mkReview ("p") ("u") 0 itGood) (by decide)

/-- C7 counterexample: the API variant's `sanitizeImages` strips the
`_.avif` suffix but adds no scheme, so the claimed combined normalization
fails in that extraction variant. -/
theorem C7_counterexample :
    sanitizeImages ["//cdn.example/img_.avif"] = ["//cdn.example/img"] ∧
      ("//cdn.example/img" : String) ≠ "https://cdn.example/img" := by
  exact ⟨by decide, by decide⟩

/-- C7 (amended): the combined normalization (https scheme added to
protocol-relative URLs and `_.avif` / `_.webp` suffixes stripped) holds in
the API-interception response handler of main.js, where
`"//cdn.example/img_.avif"` indeed becomes `"https://cdn.example/img"`; but
`sanitizeImages` (part_001 API variant) only strips suffixes without adding
a scheme, and the first main.js handler only adds the scheme without
stripping suffixes. -/
theorem C7_image_normalization :
    apiImageFix ("//cdn.example/img_.avif") = "https://cdn.example/img" ∧
      apiImageFix ("//cdn.example/img_.webp") = "https://cdn.example/img" ∧
      sanitizeImages ["//cdn.example/img_.avif"] = ["//cdn.example/img"] ∧
      sanitizeImages ["https://cdn.example/pic_300x300.jpg"] = ["https://cdn.example/pic"] ∧
      mainV1ImageFix ("//cdn.example/img_.avif") = "https://cdn.example/img_.avif" := by
  refine ⟨by decide, by decide, by decide, by decide, by decide⟩

/-- C8 counterexample: the stall detector fires even before any successful
round — eight consecutive empty rounds from the initial state terminate the
loop with the stall (exhausted) outcome while `saved` is still 0, refuting
"exhaustion is never signalled before the first successful round". -/
theorem C8_counterexample :
    (runHandlerE 20 ("p") ("u") (List.replicate 8 (some []))).2
        = Outcome.done Reason.stall ∧
      (runHandlerE 20 ("p") ("u") (List.replicate 8 (some []))).1.saved = 0 := by
  exact ⟨by decide, by decide⟩

/-- C8 (amended): from any state below target with the stall counter just
reset (as after a round with progress), a run of consecutive zero-progress
rounds whose length makes the counter reach the threshold 8 terminates the
loop with the stall (exhausted) outcome, regardless of later rounds — i.e.
within stallThreshold rounds of the last progress; and any round with
progress (saved count differs from `lastCount`, target not reached) resets
the stall counter to zero.  However the detector does not wait for a first
successful round (see the counterexample). -/
theorem C8_stall_detection :
    (∀ (rw : Nat) (pid purl : String) (stallRounds : List (List RawItem))
        (rest : List (Option (List RawItem))) (s : HState),
        s.saved < rw → s.lastCount = s.saved →
        s.noNewRounds + stallRounds.length = 8 → stallRounds ≠ [] →
        (∀ round ∈ stallRounds, ∀ it ∈ round, contentKey it.text ∈ s.seenTexts) →
        (runRoundsE rw pid purl (stallRounds.map some ++ rest) s).2 = .done .stall) ∧
      ∀ (rw : Nat) (pid purl : String) (items : List RawItem) (s : HState),
        ¬ s.saved ≥ rw → ¬ (addUnique rw pid purl items s).saved ≥ rw →
        (addUnique rw pid purl items s).saved ≠ s.lastCount →
        ∃ s2, roundStep rw pid purl items s = .cont s2 ∧ s2.noNewRounds = 0 ∧
          s2.lastCount = (addUnique rw pid purl items s).saved :=
  ⟨fun rw pid purl => stall_countdown rw pid purl,
    fun rw pid purl => roundStep_reset rw pid purl⟩

/-- C8 witness: after one successful round (state `s8`), eight empty rounds
terminate the loop with the stall outcome without reaching the rounds that
follow. -/
theorem C8_stall_detection_witness :
    s8.saved < 20 ∧
      (runRoundsE 20 ("p") ("u")
          ((List.replicate 8 ([] : List RawItem)).map some ++ [none]) s8).2
        = Outcome.done Reason.stall := by
  refine ⟨by decide, ?_⟩
  exact C8_stall_detection.1 20 ("p") ("u") (List.replicate 8 []) [none] s8
    (by decide) (by decide) (by decide) (by decide) (by decide)

/-- C9 counterexample: a fatal error in the second round aborts the handler
before the final flush: one record was accepted (`saved = 1`) but nothing
was ever emitted to the sink — the buffered record is discarded, refuting
"the remaining-buffer flush happens regardless of which terminal state was
reached". -/
theorem C9_counterexample :
    (runHandlerE 20 ("p") ("u") [some [itGood], none]).2 = Outcome.fatal ∧
      (runHandlerE 20 ("p") ("u") [some [itGood], none]).1.saved = 1 ∧
      (runHandlerE 20 ("p") ("u") [some [itGood], none]).1.emitted = [] := by
  exact ⟨by decide, by decide, by decide⟩

/-- C9 (amended): when the harvest loop reaches any terminal state normally
(target reached, stall, or round budget), the final flush empties the buffer
and the emitted total equals `saved`; when a fatal error is thrown mid-run,
the handler aborts before the final flush — the accepted records are split
between what was already emitted and what is still buffered (and the
buffered part is lost; crawlee-level request retries are outside this
model). -/
theorem C9_final_flush :
    (∀ (rw : Nat) (pid purl : String) (rounds : List (Option (List RawItem))) (r : Reason),
        (runHandlerE rw pid purl rounds).2 = Outcome.done r →
        (runHandlerE rw pid purl rounds).1.buffer = [] ∧
          (runHandlerE rw pid purl rounds).1.emitted.length =
            (runHandlerE rw pid purl rounds).1.saved) ∧
      ∀ (rw : Nat) (pid purl : String) (rounds : List (Option (List RawItem))),
        (runHandlerE rw pid purl rounds).2 = Outcome.fatal →
        (runHandlerE rw pid purl rounds).1.emitted.length +
            (runHandlerE rw pid purl rounds).1.buffer.length =
          (runHandlerE rw pid purl rounds).1.saved := by
  constructor
  · intro rw pid purl rounds r h
    have hc := runRoundsE_count rw pid purl (rounds.take 60) hInit rfl
    rcases e : runRoundsE rw pid purl (rounds.take 60) hInit with ⟨s, o⟩
    rw [e] at hc
    simp only at hc
    cases o with
    | fatal =>
      rw [runHandlerE_eq_fatal rw pid purl rounds s e] at h
      exact absurd h (by simp)
    | done r2 =>
      rw [runHandlerE_eq_done rw pid purl rounds s r2 e]
      refine ⟨rfl, ?_⟩
      simp only [finalFlush, List.length_append]
      omega
  · intro rw pid purl rounds h
    have hc := runRoundsE_count rw pid purl (rounds.take 60) hInit rfl
    rcases e : runRoundsE rw pid purl (rounds.take 60) hInit with ⟨s, o⟩
    rw [e] at hc
    simp only at hc
    cases o with
    | fatal =>
      rw [runHandlerE_eq_fatal rw pid purl rounds s e]
      dsimp only
      omega
    | done r2 =>
      rw [runHandlerE_eq_done rw pid purl rounds s r2 e] at h
      exact absurd h (by simp)

/-- C9 witness: a run that ends normally (round budget) flushed everything. -/
theorem C9_final_flush_witness :
    (runHandlerE 20 ("p") ("u") [some []]).2 = Outcome.done Reason.cap ∧
      (runHandlerE 20 ("p") ("u") [some []]).1.buffer = [] ∧
      (runHandlerE 20 ("p") ("u") [some []]).1.emitted.length =
        (runHandlerE 20 ("p") ("u") [some []]).1.saved := by
  refine ⟨by decide, ?_⟩
  exact C9_final_flush.1 20 ("p") ("u") [some []] Reason.cap (by decide)

/-- C10 counterexample: a finite fractional input passes through the
coercion unchanged, so the effective target need not be an integer:
`results_wanted = 2.5` yields the non-integral target 2.5. -/
theorem C10_counterexample :
    RESULTS_WANTED (.num (mkRat 5 2)) = mkRat 5 2 ∧ (mkRat 5 2).den ≠ 1 := by
  constructor
  · show jsMax 1 (mkRat 5 2) = mkRat 5 2
    decide
  · decide

/-- C10 (amended): the coerced target is always ≥ 1: non-finite (NaN or
infinite `Number(...)` results, covering non-numeric input) yields the
default 20, any finite input below 1 (zero and negatives included) is
clamped up to 1, and any finite input ≥ 1 — integral or not — passes
through unchanged. -/
theorem C10_results_wanted :
    (∀ j : JNum, 1 ≤ RESULTS_WANTED j) ∧
      (RESULTS_WANTED JNum.nan = 20 ∧ RESULTS_WANTED JNum.inf = 20 ∧
        RESULTS_WANTED JNum.neginf = 20) ∧
      (∀ q : ℚ, q < 1 → RESULTS_WANTED (JNum.num q) = 1) ∧
      ∀ q : ℚ, 1 ≤ q → RESULTS_WANTED (JNum.num q) = q := by
  refine ⟨?_, ⟨rfl, rfl, rfl⟩, ?_, ?_⟩
  · intro j
    cases j with
    | num q =>
      show (1:ℚ) ≤ jsMax 1 q
      unfold jsMax
      split
      · next h => exact h
      · exact le_refl 1
    | nan => norm_num [RESULTS_WANTED]
    | inf => norm_num [RESULTS_WANTED]
    | neginf => norm_num [RESULTS_WANTED]
  · intro q h
    show jsMax 1 q = 1
    unfold jsMax
    rw [if_neg (not_le.mpr h)]
  · intro q h
    show jsMax 1 q = q
    unfold jsMax
    rw [if_pos h]

/-- C10 witness: the clamp applied to the finite input 0. -/
theorem C10_results_wanted_witness :
    (0:ℚ) < 1 ∧ RESULTS_WANTED (JNum.num 0) = 1 :=
  ⟨by decide, C10_results_wanted.2.2.1 0 (by decide)⟩
